import Mathlib

/-!
Formal model of the `lora_uart` LoRaWAN client (`src/client.py`).

Python strings are modeled as `List Char` (for the byte-oriented response
text) or `String` (for AT command text), Python `bytes` as `List Nat`,
wall-clock time and durations as rationals, and Python `float` values as
exact rationals.  Fallible Python code is modeled with `Option` / `Except`.
Each definition transcribes the correspondingly named piece of `client.py`.
-/

namespace LoraUart

/-! ### Response parsing (`LoRa._send_cmd`, client.py lines 430-442) -/

/-- The whitespace characters removed by Python `str.strip()` (ASCII range;
the AT protocol responses decoded here are ASCII text). -/
def pyWhitespace (c : Char) : Bool :=
  c == ' ' || c == '\t' || c == '\n' || c == '\r' || c == '\x0b' || c == '\x0c'

/-- Python `str.strip()`: drop leading and trailing whitespace. -/
def pyStrip (s : List Char) : List Char :=
  ((s.dropWhile pyWhitespace).reverse.dropWhile pyWhitespace).reverse

/-- `isPref n h` holds when `n` is an initial segment of `h`. -/
def isPref : List Char → List Char → Bool
  | [], _ => true
  | _ :: _, [] => false
  | a :: as, b :: bs => a == b && isPref as bs

/-- Python's substring test `needle in hay`. -/
def hasSub (needle : List Char) : List Char → Bool
  | [] => needle.isEmpty
  | c :: t => isPref needle (c :: t) || hasSub needle t

/-- The characters after the first occurrence of `sep`
(`s.split(sep, 1)[1]` in Python), or `none` when `sep` does not occur. -/
def splitAfterFirst (sep : Char) : List Char → Option (List Char)
  | [] => none
  | c :: t => if c == sep then some t else splitAfterFirst sep t

/-- Response classification of `_send_cmd` (client.py lines 436-442):

    if response_str == "OK" or "=OK" in response_str:
        return True, ""
    elif "=" in response_str:
        parts = response_str.split("=", 1)
        return True, parts[1].strip() if len(parts) == 2 else ""
    return False, ""

`response_str` is the received text already stripped (line 430).  When `=`
occurs, `split("=", 1)` always yields two parts, so the `else ""` branch is
dead; `splitAfterFirst` returning `some` is exactly the `"=" in response_str`
test, and `none` falls through to the failure result. -/
def parseResponse (raw : List Char) : Bool × List Char :=
  let r := pyStrip raw
  if r == "OK".toList || hasSub "=OK".toList r then (true, [])
  else
    match splitAfterFirst '=' r with
    | some rest => (true, pyStrip rest)
    | none => (false, [])

/-- The remainder after the first `=` (total helper for the spec-side
parser; only meaningful when `=` is known to occur). -/
def afterFirstEq (r : List Char) : List Char := (splitAfterFirst '=' r).getD []

/-- Response parsing as the specification words it (spec 4.1, rules 1-4):
value `none` for rules 1, 2 and 4; for rule 3 the trimmed remainder after
the first `=`. -/
def parseResponseSpec (raw : List Char) : Bool × Option (List Char) :=
  let r := pyStrip raw
  if r = "OK".toList then (true, none)
  else if hasSub "=OK".toList r then (true, none)
  else if hasSub ['='] r then (true, some (pyStrip (afterFirstEq r)))
  else (false, none)

/-! ### Payload encoding (`LoRa._encode_dict` / `LoRa._to_bytes`,
client.py lines 461-513)

Dict values are modeled by `PyVal`: Python `int` (including `bool`), `float`
(modeled as an exact rational), `str`, and `vOther` for every other type.
`_encode_dict` multiplies the raw value before converting with `int(...)`;
for a `str` value Python's `*` is sequence repetition, and `int(...)` of the
repeated string either parses (base 10) or raises `ValueError` (caught by
the encoder); for any other type `int(value * k)` raises `TypeError`, which
the encoder does **not** catch. -/

inductive PyVal where
  | vInt (n : Int)
  | vFloat (q : ℚ)
  | vStr (s : String)
  | vOther
deriving DecidableEq

/-- Python `int(q)` on a float: truncation toward zero. -/
def pyTrunc (q : ℚ) : Int := q.num.tdiv (q.den : Int)

/-- Tail of a base-10 integer literal: digits, with single underscores
allowed only between digits (CPython's grammar for `int(str)`). -/
def digitTail : List Char → Bool
  | [] => true
  | '_' :: [] => false
  | '_' :: c :: t => c.isDigit && digitTail t
  | c :: t => c.isDigit && digitTail t

/-- A nonempty run of digits with optional internal underscores. -/
def digitRun : List Char → Bool
  | [] => false
  | c :: t => c.isDigit && digitTail t

def digitsToNat (ds : List Char) : Nat :=
  ds.foldl (fun a c => a * 10 + (c.toNat - '0'.toNat)) 0

/-- Python `int(s)` for an ASCII string: strip whitespace, optional sign,
then a digit run; `none` models the `ValueError`. -/
def pyStrToInt (s : List Char) : Option Int :=
  let t := pyStrip s
  match t with
  | '+' :: rest =>
      if digitRun rest then some ((digitsToNat (rest.filter (· != '_')) : Int)) else none
  | '-' :: rest =>
      if digitRun rest then some (-((digitsToNat (rest.filter (· != '_')) : Int))) else none
  | _ => if digitRun t then some ((digitsToNat (t.filter (· != '_')) : Int)) else none

/-- Outcome of Python `int(value * k)` inside `_encode_dict`. -/
inductive PyNum where
  | ok (n : Int)
  | valueError
  | typeError
deriving DecidableEq

/-- `int(value * k)`: exact on ints, truncating on floats, repetition then
base-10 parsing on strings, `TypeError` on anything else. -/
def pyIntOfMul (v : PyVal) (k : Nat) : PyNum :=
  match v with
  | .vInt n => .ok (n * k)
  | .vFloat q => .ok (pyTrunc (q * k))
  | .vStr s =>
      match pyStrToInt (List.flatten (List.replicate k s.toList)) with
      | some n => .ok n
      | none => .valueError
  | .vOther => .typeError

/-- `min(255, max(0, n))` as a byte. -/
def clampByte (n : Int) : Nat := (min 255 (max 0 n)).toNat

/-- Python `n.to_bytes(2, "big", signed=True)`: two big-endian bytes of the
two's complement, `none` models the `OverflowError`. -/
def toBytes2Signed (n : Int) : Option (List Nat) :=
  if -32768 ≤ n ∧ n < 32768 then
    some [((n % 65536).toNat) / 256, ((n % 65536).toNat) % 256]
  else none

/-- Python `n.to_bytes(2, "big")` (unsigned). -/
def toBytes2Unsigned (n : Int) : Option (List Nat) :=
  if 0 ≤ n ∧ n < 65536 then some [n.toNat / 256, n.toNat % 256] else none

/-- UTF-8 encoding of one scalar value. -/
def utf8EncodeChar (c : Char) : List Nat :=
  let n := c.toNat
  if n < 0x80 then [n]
  else if n < 0x800 then [0xC0 + n / 0x40, 0x80 + n % 0x40]
  else if n < 0x10000 then
    [0xE0 + n / 0x1000, 0x80 + (n / 0x40) % 0x40, 0x80 + n % 0x40]
  else
    [0xF0 + n / 0x40000, 0x80 + (n / 0x1000) % 0x40,
     0x80 + (n / 0x40) % 0x40, 0x80 + n % 0x40]

/-- Python `s.encode("utf-8")`. -/
def utf8Encode (s : String) : List Nat :=
  List.flatten (s.toList.map utf8EncodeChar)

/-- What one `(key, value)` pair contributes inside `_encode_dict`'s loop. -/
inductive FieldOut where
  | bytes (bs : List Nat)
  | skip
  | typeErr
deriving DecidableEq

/-- One iteration of the loop of `_encode_dict` (client.py lines 493-511):

    if key in ("temp", "temperature"):
        temp = int(value * 10)
        result.extend(temp.to_bytes(2, "big", signed=True))
    elif key == "humidity":
        result.append(min(255, max(0, int(value * 2))))
    elif key == "pressure":
        result.extend(int(value * 10).to_bytes(2, "big"))
    elif key == "battery":
        result.append(min(255, max(0, int(value))))
    elif isinstance(value, str): result.extend(value.encode("utf-8"))
    elif isinstance(value, int): result.append(value & 0xFF)
    elif isinstance(value, float):
        result.extend(int(value * 100).to_bytes(2, "big", signed=True))

`ValueError` and `OverflowError` are caught (the pair is skipped);
`TypeError` from `int(value * k)` on an unsupported type is not caught. -/
def encodeField (key : String) (v : PyVal) : FieldOut :=
  if key = "temp" ∨ key = "temperature" then
    match pyIntOfMul v 10 with
    | .ok n =>
        match toBytes2Signed n with
        | some bs => .bytes bs
        | none => .skip
    | .valueError => .skip
    | .typeError => .typeErr
  else if key = "humidity" then
    match pyIntOfMul v 2 with
    | .ok n => .bytes [clampByte n]
    | .valueError => .skip
    | .typeError => .typeErr
  else if key = "pressure" then
    match pyIntOfMul v 10 with
    | .ok n =>
        match toBytes2Unsigned n with
        | some bs => .bytes bs
        | none => .skip
    | .valueError => .skip
    | .typeError => .typeErr
  else if key = "battery" then
    match pyIntOfMul v 1 with
    | .ok n => .bytes [clampByte n]
    | .valueError => .skip
    | .typeError => .typeErr
  else
    match v with
    | .vStr s => .bytes (utf8Encode s)
    | .vInt n => .bytes [(n % 256).toNat]
    | .vFloat q =>
        match toBytes2Signed (pyTrunc (q * 100)) with
        | some bs => .bytes bs
        | none => .skip
    | .vOther => .skip

/-- `_encode_dict`: iterate the dict's pairs in order, concatenating their
byte contributions; an uncaught `TypeError` aborts the whole call. -/
def encodeDict : List (String × PyVal) → Except Unit (List Nat)
  | [] => .ok []
  | (k, v) :: rest =>
    match encodeField k v with
    | .typeErr => .error ()
    | .skip => encodeDict rest
    | .bytes bs =>
      match encodeDict rest with
      | .ok t => .ok (bs ++ t)
      | .error e => .error e

/-- The argument of `send` (its annotated type `Union[bytes, str, dict]`). -/
inductive PyData where
  | ofBytes (bs : List Nat)
  | ofStr (s : String)
  | ofDict (d : List (String × PyVal))

/-- `LoRa._to_bytes` restricted to the annotated union: bytes pass through,
strings are UTF-8 encoded, dicts go through `_encode_dict` (whose uncaught
`TypeError` propagates). -/
def toBytes : PyData → Except Unit (List Nat)
  | .ofBytes bs => .ok bs
  | .ofStr s => .ok (utf8Encode s)
  | .ofDict d => encodeDict d

/-! ### Session state and `send` (client.py lines 67-69, 96-107, 162-195) -/

/-- `SEND_INTERVAL = 30` seconds between sends (duty cycle). -/
def SEND_INTERVAL : ℚ := 30

/-- `MAX_RETRIES = 3`. -/
def MAX_RETRIES : Nat := 3

/-- `MAX_QUEUE_SIZE = 20`. -/
def MAX_QUEUE_SIZE : Nat := 20

/-- `QueuedMessage` dataclass (client.py lines 45-49): payload plus a
`retries` counter defaulting to 0. -/
structure QueuedMessage where
  data : List Nat
  retries : Nat := 0
deriving DecidableEq

/-- The mutable session fields of a `LoRa` object: `_joined`, `_running`,
`_last_send_time` and the FIFO content of `_queue` (front of the list =
next message to be dequeued). -/
structure LoRaState where
  joined : Bool
  running : Bool
  lastSendTime : ℚ
  queue : List QueuedMessage
deriving DecidableEq

/-- The state set up by `__init__` (client.py lines 100-105) before any
join: `_joined = False`, `_running = False`, `_last_send_time = 0.0`,
empty queue. -/
def initState : LoRaState :=
  { joined := false, running := false, lastSendTime := 0, queue := [] }

/-- The `is_connected` property (client.py lines 268-271). -/
def is_connected (st : LoRaState) : Bool := st.joined

/-- The `queue_size` property (client.py lines 273-276). -/
def queue_size (st : LoRaState) : Nat := st.queue.length

/-- `stop` / `_cleanup` effect on the session fields (client.py lines
249-266): clear `_running`; `_joined`, `_last_send_time` and the queue
content are not touched. -/
def stop (st : LoRaState) : LoRaState := { st with running := false }

/-- `send` (client.py lines 162-195): refuse when not joined; convert the
payload (a dict conversion may raise, which propagates); refuse empty or
oversized payloads; `put_nowait` appends at the back, and its `Full`
exception (queue already at `MAX_QUEUE_SIZE`) is caught and turned into
`False`. -/
def send (st : LoRaState) (d : PyData) : Except Unit (Bool × LoRaState) :=
  if st.joined = false then .ok (false, st)
  else
    match toBytes d with
    | .error e => .error e
    | .ok payload =>
      if payload.length = 0 then .ok (false, st)
      else if 242 < payload.length then .ok (false, st)
      else if MAX_QUEUE_SIZE ≤ st.queue.length then .ok (false, st)
      else .ok (true, { st with queue := st.queue ++ [{ data := payload }] })

/-- A joined session whose queue already holds 20 one-byte messages. -/
def fullQueueState : LoRaState :=
  { joined := true, running := true, lastSendTime := 0,
    queue := List.replicate 20 { data := [1] } }

/-! ### Background worker (`LoRa._worker_loop`, client.py lines 319-376)

The worker is modeled one iteration at a time, under the assumption that
`self._running` stays `true` throughout the iteration (a "running worker"):
the `break` paths guarded by `not self._running` are then dead code.
`time.time()` is an explicit rational clock; the duration of each
`_do_send` call (including its 3-second RX wait on success) is an
environment parameter, and a `_do_send` call that raises counts as a
failed outcome (the exception is caught at client.py line 359). -/

/-- Total time slept by the rate-limit loop (client.py lines 341-343)

    while wait_time > 0 and self._running:
        time.sleep(min(1.0, wait_time))
        wait_time -= 1.0

with `self._running` staying true. -/
def chunkSleep (w : ℚ) : ℚ :=
  if h : 0 < w then min 1 w + chunkSleep (w - 1) else 0
termination_by (⌈w⌉).toNat
decreasing_by
  have h1 : 0 < ⌈w⌉ := Int.ceil_pos.mpr h
  have h2 : ⌈w - 1⌉ = ⌈w⌉ - 1 := by
    simp
  omega

/-- Environment of one worker iteration: the clock value when the
rate-limit check runs, and the outcome and duration of each `_do_send`
attempt (attempt `i` of the dequeued message). -/
structure SendEnv where
  now : ℚ
  outcome : Nat → Bool
  dur : Nat → ℚ
  dur_nonneg : ∀ i, 0 ≤ dur i

/-- The retry loop (client.py lines 350-364), started at attempt index `i`
with `rem` attempts remaining out of `MAX_RETRIES`:

    for attempt in range(self.MAX_RETRIES):
        try:
            if self._do_send(msg.data):
                success = True
                break
        except Exception: ...
        if attempt < self.MAX_RETRIES - 1:
            time.sleep(2)

Returns (attempts actually made, success flag, clock at the end of the
attempt sequence, start times of the attempts made).  `msg` itself is not
touched by the loop (the attempt index lives in the local `attempt`). -/
def retryGo (outcome : Nat → Bool) (dur : Nat → ℚ) :
    Nat → Nat → ℚ → Nat × Bool × ℚ × List ℚ
  | _, 0, t => (0, false, t, [])
  | i, r + 1, t =>
      let tEnd := t + dur i
      if outcome i then (1, true, tEnd, [t])
      else if r = 0 then (1, false, tEnd, [t])
      else
        let rec' := retryGo outcome dur (i + 1) r (tEnd + 2)
        (rec'.1 + 1, rec'.2.1, rec'.2.2.1, t :: rec'.2.2.2)

/-- The clock value at which the first `_do_send` attempt starts:
`env.now` plus the rate-limit wait (client.py lines 335-343). -/
def attemptStart (st : LoRaState) (env : SendEnv) : ℚ :=
  let elapsed := env.now - st.lastSendTime
  if elapsed < SEND_INTERVAL then env.now + chunkSleep (SEND_INTERVAL - elapsed)
  else env.now

/-- Observable outcome of one worker iteration. -/
structure IterResult where
  state : LoRaState
  processed : Option QueuedMessage
  attempts : Nat
  success : Bool
  attemptTimes : List ℚ
  endTime : ℚ

/-- One iteration of `_worker_loop` (client.py lines 321-372) in a running
worker: dequeue (an empty queue just loops), wait out the duty-cycle
spacing, run the retry loop, then set `_last_send_time` to the current
time whether the attempt sequence succeeded or exhausted its retries.
The dequeued message is dropped either way — never re-enqueued — and its
`retries` field is returned exactly as the loop leaves it. -/
def workerIteration (st : LoRaState) (env : SendEnv) : IterResult :=
  match st.queue with
  | [] => ⟨st, none, 0, false, [], env.now⟩
  | msg :: rest =>
      let t0 := attemptStart st env
      let r := retryGo env.outcome env.dur 0 MAX_RETRIES t0
      ⟨{ st with queue := rest, lastSendTime := r.2.2.1 },
        some msg, r.1, r.2.1, r.2.2.2, r.2.2.1⟩

/-- A joined running session whose queue holds one one-byte message. -/
def wStOne : LoRaState :=
  { joined := true, running := true, lastSendTime := 0,
    queue := [{ data := [1] }] }

/-- An environment in which every `_do_send` attempt fails. -/
def wEnvFail : SendEnv :=
  { now := 100, outcome := fun _ => false, dur := fun _ => 1,
    dur_nonneg := fun _ => by norm_num }

/-- A joined running session with one queued message, created as `send`
creates it (`retries = 0`). -/
def cexSt : LoRaState :=
  { joined := true, running := true, lastSendTime := 0,
    queue := [{ data := [1] }] }

/-- An environment whose `_do_send` always fails and takes no time. -/
def cexEnv : SendEnv :=
  { now := 100, outcome := fun _ => false, dur := fun _ => 0,
    dur_nonneg := fun _ => le_refl 0 }

deriving instance DecidableEq for Except

/-! ### Join (`LoRa.join`, client.py lines 197-247) -/

/-- Outcome of `join`: the three `LoRaError` cases and success. -/
inductive JoinOutcome where
  | configFailed (cmd : String)
  | rejected
  | timedOut
  | success
deriving DecidableEq

/-- Python `str.upper()` (ASCII identifiers). -/
def pyUpper (s : String) : String := s.map Char.toUpper

/-- The fixed configuration sequence of `join` (client.py lines 212-223),
each command paired with its criticality flag; only `AT+JOINEUI` and
`AT+APPKEY` are critical, and they carry the caller's identifiers
upper-cased, verbatim. -/
def configCommands (region : String) (dataRate : Nat)
    (appEui appKey : String) : List (String × Bool) :=
  [("AT+LORAMODE=LORAWAN", false),
   ("AT+JOINTYPE=OTAA", false),
   ("AT+REGION=" ++ region, false),
   ("AT+CLASS=CLASS_A", false),
   ("AT+DATARATE=" ++ toString dataRate, false),
   ("AT+EIRP=14", false),
   ("AT+ADR=0", false),
   ("AT+UPLINKTYPE=UNCONFIRMED", false),
   ("AT+JOINEUI=" ++ pyUpper appEui, true),
   ("AT+APPKEY=" ++ pyUpper appKey, true)]

/-- The configuration loop of `join` (client.py lines 225-228):

    for cmd, critical in config_commands:
        ok, _ = self._send_cmd(cmd)
        if not ok and critical:
            raise LoRaError(f"Failed to execute: {cmd}")

`cfgOk c` is the ok flag of the exchange for command `c`.  Returns the
first failing critical command (if any) together with the trace of
commands actually issued, in order. -/
def runConfig (cfgOk : String → Bool) :
    List (String × Bool) → Option String × List String
  | [] => (none, [])
  | (c, crit) :: rest =>
    if !(cfgOk c) && crit then (some c, [c])
    else
      let r := runConfig cfgOk rest
      (r.1, c :: r.2)

/-- The join-accept polling loop (client.py lines 238-245):

    start = time.time()
    while time.time() - start < timeout:
        ok, data = self._send_cmd("AT+JOIN?")
        if ok and data == "1":
            self._joined = True
            return
        time.sleep(5)

`resp k` gives the parsed result of the k-th `AT+JOIN?` exchange and
`dur k` the wall time that exchange takes; 5 more seconds pass sleeping
after each unsuccessful poll.  Returns whether some poll succeeded with
value "1", together with the start times of the polls performed. -/
def pollLoop (resp : Nat → String → Bool × String) (dur : Nat → ℚ)
    (hdur : ∀ i, 0 ≤ dur i) (start timeout : ℚ) (k : Nat) (now : ℚ) :
    Bool × List ℚ :=
  if h : now - start < timeout then
    if (resp k "AT+JOIN?").1 && ((resp k "AT+JOIN?").2 == "1") then
      (true, [now])
    else
      let r := pollLoop resp dur hdur start timeout (k + 1) (now + dur k + 5)
      (r.1, now :: r.2)
  else (false, [])
termination_by (⌈start + timeout - now⌉).toNat
decreasing_by
  have h0 : 0 ≤ dur k := hdur k
  have h1 : 0 < ⌈start + timeout - now⌉ := Int.ceil_pos.mpr (by linarith)
  have h2 : ⌈start + timeout - (now + dur k + 5)⌉ ≤
      ⌈start + timeout - now⌉ - 5 := by
    have hle : start + timeout - (now + dur k + 5) ≤
        (start + timeout - now) - ((5 : ℤ) : ℚ) := by
      push_cast
      linarith
    calc ⌈start + timeout - (now + dur k + 5)⌉
        ≤ ⌈(start + timeout - now) - ((5 : ℤ) : ℚ)⌉ := Int.ceil_le_ceil hle
      _ = ⌈start + timeout - now⌉ - 5 := Int.ceil_sub_int _ _
  omega

/-- Start time of the j-th poll, counted from a loop state with next poll
index `k` at clock `now`. -/
def travel (dur : Nat → ℚ) (k j : Nat) (now : ℚ) : ℚ :=
  now + ∑ i in Finset.range j, (dur (k + i) + 5)

/-- `join` (client.py lines 197-247): run the configuration sequence,
aborting with a configuration-failure error naming the command when a
critical exchange fails; issue `AT+JOIN=1`, aborting with the rejection
error when it is refused; then poll `AT+JOIN?` until it answers ok with
value "1" (set `_joined := true` and succeed) or `timeout` elapses since
the request (the join-timeout error).  `startT` is the clock value right
after the join request.  The returned trace lists the configuration and
join-request commands issued, in order. -/
def joinRun (cfgOk : String → Bool) (resp : Nat → String → Bool × String)
    (dur : Nat → ℚ) (hdur : ∀ i, 0 ≤ dur i) (region : String)
    (dataRate : Nat) (appEui appKey : String) (timeout startT : ℚ)
    (st : LoRaState) : JoinOutcome × LoRaState × List String :=
  let cfg := runConfig cfgOk (configCommands region dataRate appEui appKey)
  match cfg.1 with
  | some c => (.configFailed c, st, cfg.2)
  | none =>
    if cfgOk "AT+JOIN=1" then
      let p := pollLoop resp dur hdur startT timeout 0 startT
      if p.1 then (.success, { st with joined := true }, cfg.2 ++ ["AT+JOIN=1"])
      else (.timedOut, st, cfg.2 ++ ["AT+JOIN=1"])
    else (.rejected, st, cfg.2 ++ ["AT+JOIN=1"])

/-! ### Theorems -/

theorem splitAfterFirst_none_iff (c : Char) (l : List Char) :
    splitAfterFirst c l = none ↔ hasSub [c] l = false := by
  induction l with
  | nil => simp [splitAfterFirst, hasSub]
  | cons a t ih =>
      by_cases h : a = c
      · subst h
        simp [splitAfterFirst, hasSub, isPref]
      · have h' : c ≠ a := Ne.symm h
        simp [splitAfterFirst, hasSub, isPref, h, h', ih]

/-- Claim C1: the response parser of `_send_cmd` follows the spec's four
rules on the trimmed text — `"OK"` and any text containing `"=OK"` give
ok with no value, otherwise text containing `=` gives ok with the trimmed
remainder after the first `=`, and anything else fails.  In particular
`"+CMD=OK"` parses to `(true, none)` (rule 2 takes precedence over rule 3)
and `"+DEVEUI=70B3D57ED0012345"` to `(true, "70B3D57ED0012345")`; the code
returns `""` where the spec says `value: none`. -/
theorem response_parser_follows_spec :
    (∀ raw : List Char,
        (parseResponse raw).1 = (parseResponseSpec raw).1 ∧
        (parseResponse raw).2 = ((parseResponseSpec raw).2.getD [])) ∧
    parseResponseSpec "+CMD=OK".toList = (true, none) ∧
    parseResponse "+CMD=OK".toList = (true, []) ∧
    parseResponseSpec "+DEVEUI=70B3D57ED0012345".toList =
      (true, some "70B3D57ED0012345".toList) ∧
    parseResponse "+DEVEUI=70B3D57ED0012345".toList =
      (true, "70B3D57ED0012345".toList) ∧
    parseResponse "ERROR".toList = (false, []) ∧
    parseResponse "".toList = (false, []) := by
  refine ⟨?_, by decide, by decide, by decide, by decide, by decide, by decide⟩
  intro raw
  unfold parseResponse parseResponseSpec
  by_cases h1 : pyStrip raw = ['O', 'K']
  · simp [h1]
  · by_cases h2 : hasSub ['=', 'O', 'K'] (pyStrip raw) = true
    · simp [h1, h2]
    · rcases hsp : splitAfterFirst '=' (pyStrip raw) with _ | rest
      · have h3 : hasSub ['='] (pyStrip raw) = false :=
          (splitAfterFirst_none_iff '=' (pyStrip raw)).mp hsp
        simp [h1, h2, h3, hsp]
      · have h3 : hasSub ['='] (pyStrip raw) = true := by
          rcases h : hasSub ['='] (pyStrip raw) with _ | _
          · exact absurd ((splitAfterFirst_none_iff '=' (pyStrip raw)).mpr h)
              (by simp [hsp])
          · rfl
        simp [h1, h2, h3, hsp, afterFirstEq]

/-- Claim C5: an empty payload, an oversized payload (> 242 bytes), or a
queue already holding 20 messages makes `send` return `False` without
raising, leaving the state — in particular the queue content and its FIFO
order — exactly as it was. -/
theorem send_rejects_invalid_or_full (st : LoRaState) (d : PyData)
    (payload : List Nat) (hp : toBytes d = .ok payload)
    (h : payload.length = 0 ∨ 242 < payload.length ∨ st.queue.length = 20) :
    send st d = .ok (false, st) := by
  unfold send
  rcases hj : st.joined with _ | _
  · simp
  · simp only [hj, hp]
    simp only [Bool.true_eq_false, if_false]
    split_ifs with h1 h2 h3
    · rfl
    · rfl
    · rfl
    · exfalso
      simp only [MAX_QUEUE_SIZE] at h3
      omega

theorem send_rejects_invalid_or_full_witness :
    send fullQueueState (.ofBytes [7]) = .ok (false, fullQueueState) :=
  send_rejects_invalid_or_full fullQueueState (.ofBytes [7]) [7] rfl
    (Or.inr (Or.inr (by decide)))

/-- Claim C10: when the session is not joined, `send` returns `False` with
the state untouched, and its result does not depend on the payload at all
(the not-joined test at client.py line 175 runs before `_to_bytes` at line
179, so the payload is never converted or inspected). -/
theorem send_unjoined_ignores_payload (st : LoRaState) (d d' : PyData)
    (h : st.joined = false) :
    send st d = .ok (false, st) ∧ send st d = send st d' := by
  unfold send
  rw [h]
  simp

theorem send_unjoined_ignores_payload_witness :
    send initState (.ofDict [("temp", .vOther)]) = .ok (false, initState) ∧
    send initState (.ofDict [("temp", .vOther)]) =
      send initState (.ofBytes [1]) :=
  send_unjoined_ignores_payload initState (.ofDict [("temp", .vOther)])
    (.ofBytes [1]) rfl

theorem chunkSleep_nonpos (w : ℚ) (h : w ≤ 0) : chunkSleep w = 0 := by
  rw [chunkSleep]
  simp [not_lt.mpr h]

theorem chunkSleep_eq_aux :
    ∀ (n : Nat) (w : ℚ), (⌈w⌉).toNat ≤ n → 0 ≤ w → chunkSleep w = w := by
  intro n
  induction n with
  | zero =>
      intro w hw h0
      have hc : ⌈w⌉ ≤ 0 := by omega
      have hw0 : w ≤ 0 := by
        have := Int.le_ceil w
        have : w ≤ ((0 : Int) : ℚ) := le_trans this (by exact_mod_cast hc)
        simpa using this
      have : w = 0 := le_antisymm hw0 h0
      rw [this, chunkSleep_nonpos 0 le_rfl]
  | succ n ih =>
      intro w hw h0
      rw [chunkSleep]
      by_cases hp : 0 < w
      · rw [dif_pos hp]
        by_cases h1 : w ≤ 1
        · rw [chunkSleep_nonpos (w - 1) (by linarith), min_eq_right h1]
          ring
        · have hceil : ⌈w - 1⌉ = ⌈w⌉ - 1 := by
            simp
          have hrec : chunkSleep (w - 1) = w - 1 := by
            refine ih (w - 1) ?_ (by linarith)
            have h1' : 0 < ⌈w⌉ := Int.ceil_pos.mpr hp
            omega
          rw [hrec, min_eq_left (by linarith)]
          ring
      · rw [dif_neg hp]
        have : w = 0 := le_antisymm (not_lt.mp hp) h0
        rw [this]

/-- The rate-limit loop sleeps exactly the remaining wait. -/
theorem chunkSleep_eq (w : ℚ) (h : 0 ≤ w) : chunkSleep w = w :=
  chunkSleep_eq_aux (⌈w⌉).toNat w le_rfl h

/-- The retry loop never travels back in time. -/
theorem retryGo_endTime_ge (outcome : Nat → Bool) (dur : Nat → ℚ)
    (hd : ∀ i, 0 ≤ dur i) :
    ∀ (r i : Nat) (t : ℚ), t ≤ (retryGo outcome dur i r t).2.2.1 := by
  intro r
  induction r with
  | zero => intro i t; simp [retryGo]
  | succ r ih =>
      intro i t
      simp only [retryGo]
      by_cases ho : outcome i
      · simp only [ho, if_true]
        have := hd i
        linarith
      · simp only [ho, if_false, Bool.false_eq_true]
        by_cases hr : r = 0
        · simp only [hr, if_true]
          have := hd i
          linarith
        · simp only [hr, if_false]
          have h1 : t + dur i + 2 ≤ (retryGo outcome dur (i + 1) r (t + dur i + 2)).2.2.1 :=
            ih (i + 1) (t + dur i + 2)
          have := hd i
          linarith

/-- Claim C2: in a running worker, a dequeued message whose attempts all
fail is attempted exactly `MAX_RETRIES = 3` times, with a 2-second sleep
between consecutive attempts (the next attempt starts 2 seconds after the
previous one ends), and is then dropped: it leaves the queue, the depth
decreases by one, and it is not re-enqueued; a first successful attempt at
index `k` stops the retry loop immediately after `k + 1` attempts. -/
theorem worker_retry_bound (st : LoRaState) (env : SendEnv)
    (msg : QueuedMessage) (rest : List QueuedMessage)
    (hq : st.queue = msg :: rest) :
    ((∀ i, env.outcome i = false) →
        (workerIteration st env).attempts = MAX_RETRIES ∧
        (workerIteration st env).success = false ∧
        (workerIteration st env).state.queue = rest ∧
        (workerIteration st env).state.queue.length + 1 = st.queue.length ∧
        (workerIteration st env).attemptTimes =
          [attemptStart st env,
           attemptStart st env + env.dur 0 + 2,
           attemptStart st env + env.dur 0 + 2 + env.dur 1 + 2]) ∧
    (∀ k, env.outcome k = true → (∀ i, i < k → env.outcome i = false) →
        k < MAX_RETRIES →
        (workerIteration st env).attempts = k + 1 ∧
        (workerIteration st env).success = true ∧
        (workerIteration st env).state.queue = rest) := by
  constructor
  · intro hall
    have hr : retryGo env.outcome env.dur 0 3 (attemptStart st env) =
        (3, false,
         attemptStart st env + env.dur 0 + 2 + env.dur 1 + 2 + env.dur 2,
         [attemptStart st env, attemptStart st env + env.dur 0 + 2,
          attemptStart st env + env.dur 0 + 2 + env.dur 1 + 2]) := by
      simp [retryGo, hall 0, hall 1, hall 2]
    simp [workerIteration, hq, hr, MAX_RETRIES]
  · intro k hk hprev hklt
    have hk3 : k < 3 := by simpa [MAX_RETRIES] using hklt
    interval_cases k
    · have hr : retryGo env.outcome env.dur 0 3 (attemptStart st env) =
          (1, true, attemptStart st env + env.dur 0, [attemptStart st env]) := by
        simp [retryGo, hk]
      simp [workerIteration, hq, hr, MAX_RETRIES]
    · have h0 : env.outcome 0 = false := hprev 0 (by omega)
      have hr : retryGo env.outcome env.dur 0 3 (attemptStart st env) =
          (2, true, attemptStart st env + env.dur 0 + 2 + env.dur 1,
           [attemptStart st env, attemptStart st env + env.dur 0 + 2]) := by
        simp [retryGo, h0, hk]
      simp [workerIteration, hq, hr, MAX_RETRIES]
    · have h0 : env.outcome 0 = false := hprev 0 (by omega)
      have h1 : env.outcome 1 = false := hprev 1 (by omega)
      have hr : retryGo env.outcome env.dur 0 3 (attemptStart st env) =
          (3, true, attemptStart st env + env.dur 0 + 2 + env.dur 1 + 2 + env.dur 2,
           [attemptStart st env, attemptStart st env + env.dur 0 + 2,
            attemptStart st env + env.dur 0 + 2 + env.dur 1 + 2]) := by
        simp [retryGo, h0, h1, hk]
      simp [workerIteration, hq, hr, MAX_RETRIES]

theorem worker_retry_bound_witness :
    (workerIteration wStOne wEnvFail).attempts = MAX_RETRIES ∧
    (workerIteration wStOne wEnvFail).success = false ∧
    (workerIteration wStOne wEnvFail).state.queue = [] ∧
    (workerIteration wStOne wEnvFail).state.queue.length + 1 =
      wStOne.queue.length ∧
    (workerIteration wStOne wEnvFail).attemptTimes =
      [attemptStart wStOne wEnvFail,
       attemptStart wStOne wEnvFail + wEnvFail.dur 0 + 2,
       attemptStart wStOne wEnvFail + wEnvFail.dur 0 + 2 + wEnvFail.dur 1 + 2] :=
  (worker_retry_bound wStOne wEnvFail { data := [1] } [] rfl).1 (fun _ => rfl)

/-- Claim C4: the first `_do_send` of an attempt sequence never starts less
than `SEND_INTERVAL = 30` seconds after `_last_send_time` — the instant the
previous attempt sequence ended — and at the end of the iteration
`_last_send_time` is set to the end of the attempt sequence whether it
succeeded or exhausted its retries, so the duty-cycle clock strictly
advances. -/
theorem worker_duty_cycle (st : LoRaState) (env : SendEnv)
    (msg : QueuedMessage) (rest : List QueuedMessage)
    (hq : st.queue = msg :: rest) :
    st.lastSendTime + SEND_INTERVAL ≤ attemptStart st env ∧
    (workerIteration st env).state.lastSendTime =
      (workerIteration st env).endTime ∧
    (workerIteration st env).endTime =
      (retryGo env.outcome env.dur 0 MAX_RETRIES (attemptStart st env)).2.2.1 ∧
    attemptStart st env ≤ (workerIteration st env).endTime ∧
    st.lastSendTime < (workerIteration st env).state.lastSendTime := by
  have hstart : st.lastSendTime + SEND_INTERVAL ≤ attemptStart st env := by
    unfold attemptStart
    by_cases hel : env.now - st.lastSendTime < SEND_INTERVAL
    · rw [if_pos hel, chunkSleep_eq _ (by linarith)]
      linarith
    · rw [if_neg hel]
      linarith [not_lt.mp hel]
  have hend : attemptStart st env ≤
      (retryGo env.outcome env.dur 0 MAX_RETRIES (attemptStart st env)).2.2.1 :=
    retryGo_endTime_ge env.outcome env.dur env.dur_nonneg MAX_RETRIES 0 _
  have hpos : (0 : ℚ) < SEND_INTERVAL := by norm_num [SEND_INTERVAL]
  refine ⟨hstart, ?_, ?_, ?_, ?_⟩
  · simp [workerIteration, hq]
  · simp [workerIteration, hq]
  · simpa [workerIteration, hq] using hend
  · have h2 : st.lastSendTime + SEND_INTERVAL ≤
        (retryGo env.outcome env.dur 0 MAX_RETRIES (attemptStart st env)).2.2.1 :=
      le_trans hstart hend
    simp only [workerIteration, hq]
    linarith

theorem worker_duty_cycle_witness :
    wStOne.lastSendTime + SEND_INTERVAL ≤ attemptStart wStOne wEnvFail ∧
    (workerIteration wStOne wEnvFail).state.lastSendTime =
      (workerIteration wStOne wEnvFail).endTime ∧
    (workerIteration wStOne wEnvFail).endTime =
      (retryGo wEnvFail.outcome wEnvFail.dur 0 MAX_RETRIES
        (attemptStart wStOne wEnvFail)).2.2.1 ∧
    attemptStart wStOne wEnvFail ≤ (workerIteration wStOne wEnvFail).endTime ∧
    wStOne.lastSendTime < (workerIteration wStOne wEnvFail).state.lastSendTime :=
  worker_duty_cycle wStOne wEnvFail { data := [1] } [] rfl

/-- Claim C3 counterexample: a message whose three delivery attempts all
fail still carries `retries = 0` afterwards — `QueuedMessage.retries` is
never incremented (the worker counts attempts in the loop-local `attempt`
variable), refuting "after k failed attempts the message carries
attempt_count = k" at k = 3. -/
theorem retries_never_incremented_counterexample :
    (workerIteration cexSt cexEnv).attempts = 3 ∧
    (workerIteration cexSt cexEnv).success = false ∧
    (workerIteration cexSt cexEnv).processed.map QueuedMessage.retries =
      some 0 ∧
    ¬((workerIteration cexSt cexEnv).processed.map QueuedMessage.retries =
        some (workerIteration cexSt cexEnv).attempts) := by
  refine ⟨?_, ?_, ?_, ?_⟩ <;> decide

/-- Claim C3 (amended): the worker never mutates the dequeued message's
`retries` field — each attempt is counted only in the loop-local `attempt`
variable of `_worker_loop`, so the message record (created by `send` with
`retries = 0`, the only place messages are created) is returned by the
iteration exactly as dequeued, with `retries` still 0 after any number of
failed attempts. -/
theorem worker_leaves_retries_untouched (st : LoRaState) (env : SendEnv)
    (msg : QueuedMessage) (rest : List QueuedMessage)
    (hq : st.queue = msg :: rest) :
    (workerIteration st env).processed = some msg ∧
    (workerIteration st env).processed.map QueuedMessage.retries =
      some msg.retries ∧
    (∀ (st₀ : LoRaState) (d : PyData) (st₁ : LoRaState),
        send st₀ d = .ok (true, st₁) →
        st₁.queue.map QueuedMessage.retries =
          st₀.queue.map QueuedMessage.retries ++ [0]) := by
  refine ⟨by simp [workerIteration, hq], by simp [workerIteration, hq], ?_⟩
  intro st₀ d st₁ hsend
  unfold send at hsend
  rcases hj : st₀.joined with _ | _
  · rw [hj] at hsend
    simp at hsend
  · rw [hj] at hsend
    rcases htb : toBytes d with e | payload
    · rw [htb] at hsend
      simp at hsend
    · rw [htb] at hsend
      simp only [Bool.true_eq_false, if_false] at hsend
      split_ifs at hsend with h1 h2 h3
      · simp at hsend
      · simp at hsend
      · simp at hsend
      · simp only [Except.ok.injEq, Prod.mk.injEq, true_and] at hsend
        subst hsend
        simp

theorem worker_leaves_retries_untouched_witness :
    (workerIteration cexSt cexEnv).processed = some { data := [1] } ∧
    (workerIteration cexSt cexEnv).processed.map QueuedMessage.retries =
      some (QueuedMessage.mk [1] 0).retries ∧
    (∀ (st₀ : LoRaState) (d : PyData) (st₁ : LoRaState),
        send st₀ d = .ok (true, st₁) →
        st₁.queue.map QueuedMessage.retries =
          st₀.queue.map QueuedMessage.retries ++ [0]) :=
  worker_leaves_retries_untouched cexSt cexEnv { data := [1] } [] rfl

/-- Unfolding equation for `encodeDict` on a nonempty record. -/
theorem encodeDict_cons (k : String) (v : PyVal) (rest : List (String × PyVal)) :
    encodeDict ((k, v) :: rest) =
      match encodeField k v with
      | .typeErr => .error ()
      | .skip => encodeDict rest
      | .bytes bs =>
        match encodeDict rest with
        | .ok t => .ok (bs ++ t)
        | .error e => .error e := rfl

/-- Claim C9 counterexample: with `humidity = 200` the code emits the
clamped byte `255` — not "one byte of value×2" (400 is not a byte, and the
wrapped byte `400 % 256 = 144` is not produced either): the humidity byte
is clamped to 0-255 exactly like the battery byte. -/
theorem humidity_clamp_counterexample :
    encodeDict [("humidity", .vInt 200)] = .ok [255] ∧
    encodeDict [("humidity", .vInt 200)] ≠ .ok [400] ∧
    encodeDict [("humidity", .vInt 200)] ≠ .ok [400 % 256] := by
  refine ⟨?_, ?_, ?_⟩ <;> decide

/-- Claim C9 (amended): `_encode_dict` iterates the record's pairs in
order, concatenating their contributions (a pair contributing nothing is
skipped); `temp`/`temperature` encode as the signed 16-bit big-endian
two's complement of `int(value*10)` (when in range), `humidity` as one
byte of `int(value*2)` clamped to 0-255, `pressure` as the unsigned
16-bit big-endian form of `int(value*10)` (when in range), `battery` as
one byte of `int(value)` clamped to 0-255; any other key encodes `str`
values as UTF-8, `int` values as the single byte `value & 0xFF`, `float`
values as the signed 16-bit form of `int(value*100)`, and values of any
other type are skipped, not raised on.  The encoder is a pure function of
the record by construction. -/
theorem dict_encoder_rules :
    (∀ (k : String) (v : PyVal) (rest : List (String × PyVal)) (bs : List Nat),
        encodeField k v = .bytes bs →
        encodeDict ((k, v) :: rest) = Except.map (bs ++ ·) (encodeDict rest)) ∧
    (∀ (k : String) (v : PyVal) (rest : List (String × PyVal)),
        encodeField k v = .skip →
        encodeDict ((k, v) :: rest) = encodeDict rest) ∧
    (∀ (m : Int) (j : Nat), pyIntOfMul (.vInt m) j = .ok (m * j)) ∧
    (∀ (q : ℚ) (j : Nat), pyIntOfMul (.vFloat q) j = .ok (pyTrunc (q * j))) ∧
    (∀ (v : PyVal) (n : Int), pyIntOfMul v 10 = .ok n →
        -32768 ≤ n → n < 32768 →
        encodeField "temp" v =
          .bytes [((n % 65536).toNat) / 256, ((n % 65536).toNat) % 256] ∧
        encodeField "temperature" v =
          .bytes [((n % 65536).toNat) / 256, ((n % 65536).toNat) % 256]) ∧
    (∀ (v : PyVal) (n : Int), pyIntOfMul v 2 = .ok n →
        encodeField "humidity" v = .bytes [(min 255 (max 0 n)).toNat]) ∧
    (∀ (v : PyVal) (n : Int), pyIntOfMul v 10 = .ok n →
        0 ≤ n → n < 65536 →
        encodeField "pressure" v = .bytes [n.toNat / 256, n.toNat % 256]) ∧
    (∀ (v : PyVal) (n : Int), pyIntOfMul v 1 = .ok n →
        encodeField "battery" v = .bytes [(min 255 (max 0 n)).toNat]) ∧
    (∀ (k : String), k ≠ "temp" → k ≠ "temperature" → k ≠ "humidity" →
        k ≠ "pressure" → k ≠ "battery" →
        (∀ s, encodeField k (.vStr s) = .bytes (utf8Encode s)) ∧
        (∀ n : Int, encodeField k (.vInt n) = .bytes [(n % 256).toNat]) ∧
        (∀ q : ℚ, -32768 ≤ pyTrunc (q * 100) → pyTrunc (q * 100) < 32768 →
            encodeField k (.vFloat q) =
              .bytes [(((pyTrunc (q * 100)) % 65536).toNat) / 256,
                      (((pyTrunc (q * 100)) % 65536).toNat) % 256]) ∧
        encodeField k .vOther = .skip) := by
  refine ⟨?_, ?_, ?_, ?_, ?_, ?_, ?_, ?_, ?_⟩
  · intro k v rest bs hf
    rw [encodeDict_cons, hf]
    rcases h : encodeDict rest with e | t <;> rfl
  · intro k v rest hf
    rw [encodeDict_cons, hf]
  · intro m j
    rfl
  · intro q j
    rfl
  · intro v n hv h1 h2
    have hb : toBytes2Signed n =
        some [((n % 65536).toNat) / 256, ((n % 65536).toNat) % 256] := by
      unfold toBytes2Signed
      rw [if_pos ⟨h1, h2⟩]
    constructor
    · unfold encodeField
      rw [if_pos (Or.inl rfl)]
      simp only [hv, hb]
    · unfold encodeField
      rw [if_pos (Or.inr rfl)]
      simp only [hv, hb]
  · intro v n hv
    unfold encodeField
    rw [if_neg (by decide), if_pos rfl]
    simp only [hv]
    rfl
  · intro v n hv h1 h2
    have hb : toBytes2Unsigned n = some [n.toNat / 256, n.toNat % 256] := by
      unfold toBytes2Unsigned
      rw [if_pos ⟨h1, h2⟩]
    unfold encodeField
    rw [if_neg (by decide), if_neg (by decide), if_pos rfl]
    simp only [hv, hb]
  · intro v n hv
    unfold encodeField
    rw [if_neg (by decide), if_neg (by decide), if_neg (by decide), if_pos rfl]
    simp only [hv]
    rfl
  · intro k h1 h2 h3 h4 h5
    have hne : ¬(k = "temp" ∨ k = "temperature") := by
      rintro (h | h)
      · exact h1 h
      · exact h2 h
    refine ⟨?_, ?_, ?_, ?_⟩
    · intro s
      unfold encodeField
      rw [if_neg hne, if_neg h3, if_neg h4, if_neg h5]
    · intro n
      unfold encodeField
      rw [if_neg hne, if_neg h3, if_neg h4, if_neg h5]
    · intro q hq1 hq2
      have hb : toBytes2Signed (pyTrunc (q * 100)) =
          some [(((pyTrunc (q * 100)) % 65536).toNat) / 256,
                (((pyTrunc (q * 100)) % 65536).toNat) % 256] := by
        unfold toBytes2Signed
        rw [if_pos ⟨hq1, hq2⟩]
      unfold encodeField
      rw [if_neg hne, if_neg h3, if_neg h4, if_neg h5]
      simp only [hb]
    · unfold encodeField
      rw [if_neg hne, if_neg h3, if_neg h4, if_neg h5]

theorem dict_encoder_rules_witness :
    encodeDict [("humidity", .vInt 50)] =
      Except.map ([100] ++ ·) (encodeDict ([] : List (String × PyVal))) ∧
    encodeDict [("other", .vOther)] = encodeDict ([] : List (String × PyVal)) ∧
    pyIntOfMul (.vInt 23) 10 = .ok (23 * 10) ∧
    pyIntOfMul (.vFloat 5) 100 = .ok (pyTrunc (5 * ((100 : ℕ) : ℚ))) ∧
    encodeField "temp" (.vInt 23) =
      .bytes [((((230 : Int)) % 65536).toNat) / 256,
              ((((230 : Int)) % 65536).toNat) % 256] ∧
    encodeField "humidity" (.vInt 200) =
      .bytes [(min 255 (max 0 (400 : Int))).toNat] ∧
    encodeField "pressure" (.vInt 100) =
      .bytes [((1000 : Int)).toNat / 256, ((1000 : Int)).toNat % 256] ∧
    encodeField "battery" (.vInt 95) =
      .bytes [(min 255 (max 0 (95 : Int))).toNat] ∧
    encodeField "x" (.vStr "A") = .bytes (utf8Encode "A") ∧
    encodeField "x" (.vInt 300) = .bytes [(((300 : Int)) % 256).toNat] ∧
    encodeField "x" (.vFloat 0) =
      .bytes [(((pyTrunc ((0 : ℚ) * 100)) % 65536).toNat) / 256,
              (((pyTrunc ((0 : ℚ) * 100)) % 65536).toNat) % 256] ∧
    encodeField "x" .vOther = .skip :=
  ⟨dict_encoder_rules.1 "humidity" (.vInt 50) [] [100] (by decide),
   dict_encoder_rules.2.1 "other" .vOther [] (by decide),
   dict_encoder_rules.2.2.1 23 10,
   dict_encoder_rules.2.2.2.1 5 100,
   (dict_encoder_rules.2.2.2.2.1 (.vInt 23) 230 (by decide) (by decide)
     (by decide)).1,
   dict_encoder_rules.2.2.2.2.2.1 (.vInt 200) 400 (by decide),
   dict_encoder_rules.2.2.2.2.2.2.1 (.vInt 100) 1000 (by decide) (by decide)
     (by decide),
   dict_encoder_rules.2.2.2.2.2.2.2.1 (.vInt 95) 95 (by decide),
   (dict_encoder_rules.2.2.2.2.2.2.2.2 "x" (by decide) (by decide) (by decide)
     (by decide) (by decide)).1 "A",
   (dict_encoder_rules.2.2.2.2.2.2.2.2 "x" (by decide) (by decide) (by decide)
     (by decide) (by decide)).2.1 300,
   (dict_encoder_rules.2.2.2.2.2.2.2.2 "x" (by decide) (by decide) (by decide)
     (by decide) (by decide)).2.2.1 0 (by simp [pyTrunc]) (by simp [pyTrunc]),
   (dict_encoder_rules.2.2.2.2.2.2.2.2 "x" (by decide) (by decide) (by decide)
     (by decide) (by decide)).2.2.2⟩

theorem pollMeasure_lt (dur : Nat → ℚ) (hdur : ∀ i, 0 ≤ dur i)
    (start timeout now : ℚ) (k : Nat) (h : now - start < timeout) :
    (⌈start + timeout - (now + dur k + 5)⌉).toNat <
      (⌈start + timeout - now⌉).toNat := by
  have h0 : 0 ≤ dur k := hdur k
  have h1 : 0 < ⌈start + timeout - now⌉ := Int.ceil_pos.mpr (by linarith)
  have h2 : ⌈start + timeout - (now + dur k + 5)⌉ ≤
      ⌈start + timeout - now⌉ - 5 := by
    have hle : start + timeout - (now + dur k + 5) ≤
        (start + timeout - now) - ((5 : ℤ) : ℚ) := by
      push_cast
      linarith
    calc ⌈start + timeout - (now + dur k + 5)⌉
        ≤ ⌈(start + timeout - now) - ((5 : ℤ) : ℚ)⌉ := Int.ceil_le_ceil hle
      _ = ⌈start + timeout - now⌉ - 5 := Int.ceil_sub_int _ _
  omega

theorem travel_zero (dur : Nat → ℚ) (k : Nat) (now : ℚ) :
    travel dur k 0 now = now := by
  simp [travel]

theorem travel_add_one (dur : Nat → ℚ) (k j : Nat) (now : ℚ) :
    travel dur k (j + 1) now = travel dur k j now + (dur (k + j) + 5) := by
  unfold travel
  rw [Finset.sum_range_succ]
  ring

theorem travel_succ (dur : Nat → ℚ) (k : Nat) :
    ∀ (j : Nat) (now : ℚ),
      travel dur k (j + 1) now = travel dur (k + 1) j (now + dur k + 5) := by
  intro j
  induction j with
  | zero =>
      intro now
      rw [travel_add_one, travel_zero, travel_zero, Nat.add_zero]
      ring
  | succ j ih =>
      intro now
      rw [travel_add_one, ih, travel_add_one,
        show k + (j + 1) = k + 1 + j from by omega]

theorem travel_step (dur : Nat → ℚ) (j : Nat) (now : ℚ) :
    travel dur 0 (j + 1) now = travel dur 0 j now + (dur j + 5) := by
  rw [travel_add_one]
  simp

theorem travel_ge (dur : Nat → ℚ) (hdur : ∀ i, 0 ≤ dur i) (k j : Nat)
    (now : ℚ) : now ≤ travel dur k j now := by
  unfold travel
  have h : 0 ≤ ∑ i in Finset.range j, (dur (k + i) + 5) :=
    Finset.sum_nonneg (fun i _ => by have := hdur (k + i); linarith)
  linarith

/-- If no poll ever reports ok with value "1", the loop comes back with
`false` once the deadline passes. -/
theorem pollLoop_no_success (resp : Nat → String → Bool × String)
    (dur : Nat → ℚ) (hdur : ∀ i, 0 ≤ dur i) (start timeout : ℚ)
    (hno : ∀ j, ((resp j "AT+JOIN?").1 && ((resp j "AT+JOIN?").2 == "1")) = false) :
    ∀ (n k : Nat) (now : ℚ), (⌈start + timeout - now⌉).toNat ≤ n →
      (pollLoop resp dur hdur start timeout k now).1 = false := by
  intro n
  induction n with
  | zero =>
      intro k now hn
      rw [pollLoop]
      split_ifs with h hb
      · exfalso
        have h1 : 0 < ⌈start + timeout - now⌉ := Int.ceil_pos.mpr (by linarith)
        omega
      · exfalso
        have h1 : 0 < ⌈start + timeout - now⌉ := Int.ceil_pos.mpr (by linarith)
        omega
      · rfl
  | succ n ih =>
      intro k now hn
      rw [pollLoop]
      split_ifs with h hb
      · exact absurd hb (by simp [hno k])
      · have hm := pollMeasure_lt dur hdur start timeout now k h
        exact ih (k + 1) (now + dur k + 5) (by omega)
      · rfl

/-- If the j-th poll reports ok with value "1" and starts before the
deadline, the loop succeeds. -/
theorem pollLoop_success (resp : Nat → String → Bool × String)
    (dur : Nat → ℚ) (hdur : ∀ i, 0 ≤ dur i) (start timeout : ℚ) :
    ∀ (j k : Nat) (now : ℚ),
      (resp (k + j) "AT+JOIN?").1 = true →
      (resp (k + j) "AT+JOIN?").2 = "1" →
      travel dur k j now - start < timeout →
      (pollLoop resp dur hdur start timeout k now).1 = true := by
  intro j
  induction j with
  | zero =>
      intro k now h1 h2 hlt
      rw [travel_zero] at hlt
      rw [pollLoop, dif_pos hlt]
      rw [Nat.add_zero] at h1 h2
      simp [h1, h2]
  | succ j ih =>
      intro k now h1 h2 hlt
      have hmono : now ≤ travel dur k (j + 1) now := travel_ge dur hdur k _ now
      have hn : now - start < timeout := by linarith
      rw [pollLoop, dif_pos hn]
      by_cases hb : ((resp k "AT+JOIN?").1 && ((resp k "AT+JOIN?").2 == "1")) = true
      · simp [hb]
      · simp only [hb]
        have h1' : (resp ((k + 1) + j) "AT+JOIN?").1 = true := by
          rw [show k + 1 + j = k + (j + 1) from by omega]
          exact h1
        have h2' : (resp ((k + 1) + j) "AT+JOIN?").2 = "1" := by
          rw [show k + 1 + j = k + (j + 1) from by omega]
          exact h2
        have hlt' : travel dur (k + 1) j (now + dur k + 5) - start < timeout := by
          rw [← travel_succ]
          exact hlt
        simpa using ih (k + 1) (now + dur k + 5) h1' h2' hlt'

/-- The times returned by the loop are exactly the `travel` times of an
initial run of polls: the j-th poll starts at
`now + sum of (dur i + 5) over the earlier polls`. -/
theorem pollLoop_times (resp : Nat → String → Bool × String)
    (dur : Nat → ℚ) (hdur : ∀ i, 0 ≤ dur i) (start timeout : ℚ) :
    ∀ (n k : Nat) (now : ℚ), (⌈start + timeout - now⌉).toNat ≤ n →
      ∃ m, (pollLoop resp dur hdur start timeout k now).2 =
        (List.range m).map (fun j => travel dur k j now) := by
  intro n
  induction n with
  | zero =>
      intro k now hn
      rw [pollLoop]
      split_ifs with h hb
      · exfalso
        have h1 : 0 < ⌈start + timeout - now⌉ := Int.ceil_pos.mpr (by linarith)
        omega
      · exfalso
        have h1 : 0 < ⌈start + timeout - now⌉ := Int.ceil_pos.mpr (by linarith)
        omega
      · exact ⟨0, rfl⟩
  | succ n ih =>
      intro k now hn
      by_cases h : now - start < timeout
      · by_cases hb : ((resp k "AT+JOIN?").1 && ((resp k "AT+JOIN?").2 == "1")) = true
        · have e : (pollLoop resp dur hdur start timeout k now).2 = [now] := by
            rw [pollLoop, dif_pos h]
            simp [hb]
          refine ⟨1, ?_⟩
          rw [e, show List.range 1 = [0] from rfl, List.map_cons, List.map_nil,
            travel_zero]
        · have e : (pollLoop resp dur hdur start timeout k now).2 =
              now :: (pollLoop resp dur hdur start timeout (k + 1)
                (now + dur k + 5)).2 := by
            rw [pollLoop, dif_pos h]
            simp [hb]
          have hm := pollMeasure_lt dur hdur start timeout now k h
          obtain ⟨m, htail⟩ := ih (k + 1) (now + dur k + 5) (by omega)
          refine ⟨m + 1, ?_⟩
          rw [e, htail, List.range_succ_eq_map, List.map_cons, List.map_map,
            travel_zero]
          refine congrArg (now :: ·) ?_
          refine List.map_congr_left ?_
          intro j hj
          simp only [Function.comp_apply]
          rw [show Nat.succ j = j + 1 from rfl, travel_succ]
      · have e : (pollLoop resp dur hdur start timeout k now).2 = [] := by
          rw [pollLoop, dif_neg h]
        exact ⟨0, by rw [e]; rfl⟩

theorem joinReq_ne_append (p x : String) (hp : 9 < p.length) :
    "AT+JOIN=1" ≠ p ++ x := by
  intro h
  have hlen := congrArg String.length h
  rw [String.length_append] at hlen
  have h9 : ("AT+JOIN=1" : String).length = 9 := rfl
  rw [h9] at hlen
  omega

/-- Claim C6: `join` issues the fixed configuration sequence in order, and
only `AT+JOINEUI=<eui>` and `AT+APPKEY=<key>` are critical, carrying the
caller's identifiers hex-uppercased, verbatim; if a critical exchange
fails, `join` aborts with a configuration-failure error naming that
command and `AT+JOIN=1` is never issued; whenever both critical exchanges
succeed, all ten configuration commands and then the join request are
issued whatever the advisory exchanges returned — a failed advisory
command aborts nothing. -/
theorem join_config_sequence (cfgOk : String → Bool)
    (resp : Nat → String → Bool × String) (dur : Nat → ℚ)
    (hdur : ∀ i, 0 ≤ dur i) (region : String) (dataRate : Nat)
    (appEui appKey : String) (timeout startT : ℚ) (st : LoRaState) :
    ((configCommands region dataRate appEui appKey).map Prod.snd =
      [false, false, false, false, false, false, false, false, true, true]) ∧
    ((configCommands region dataRate appEui appKey).map Prod.fst =
      ["AT+LORAMODE=LORAWAN", "AT+JOINTYPE=OTAA", "AT+REGION=" ++ region,
       "AT+CLASS=CLASS_A", "AT+DATARATE=" ++ toString dataRate, "AT+EIRP=14",
       "AT+ADR=0", "AT+UPLINKTYPE=UNCONFIRMED",
       "AT+JOINEUI=" ++ pyUpper appEui, "AT+APPKEY=" ++ pyUpper appKey]) ∧
    (cfgOk ("AT+JOINEUI=" ++ pyUpper appEui) = false →
      joinRun cfgOk resp dur hdur region dataRate appEui appKey timeout
          startT st =
        (.configFailed ("AT+JOINEUI=" ++ pyUpper appEui), st,
         ["AT+LORAMODE=LORAWAN", "AT+JOINTYPE=OTAA", "AT+REGION=" ++ region,
          "AT+CLASS=CLASS_A", "AT+DATARATE=" ++ toString dataRate,
          "AT+EIRP=14", "AT+ADR=0", "AT+UPLINKTYPE=UNCONFIRMED",
          "AT+JOINEUI=" ++ pyUpper appEui]) ∧
      "AT+JOIN=1" ∉
        (joinRun cfgOk resp dur hdur region dataRate appEui appKey timeout
          startT st).2.2) ∧
    (cfgOk ("AT+JOINEUI=" ++ pyUpper appEui) = true →
     cfgOk ("AT+APPKEY=" ++ pyUpper appKey) = false →
      joinRun cfgOk resp dur hdur region dataRate appEui appKey timeout
          startT st =
        (.configFailed ("AT+APPKEY=" ++ pyUpper appKey), st,
         ["AT+LORAMODE=LORAWAN", "AT+JOINTYPE=OTAA", "AT+REGION=" ++ region,
          "AT+CLASS=CLASS_A", "AT+DATARATE=" ++ toString dataRate,
          "AT+EIRP=14", "AT+ADR=0", "AT+UPLINKTYPE=UNCONFIRMED",
          "AT+JOINEUI=" ++ pyUpper appEui, "AT+APPKEY=" ++ pyUpper appKey]) ∧
      "AT+JOIN=1" ∉
        (joinRun cfgOk resp dur hdur region dataRate appEui appKey timeout
          startT st).2.2) ∧
    (cfgOk ("AT+JOINEUI=" ++ pyUpper appEui) = true →
     cfgOk ("AT+APPKEY=" ++ pyUpper appKey) = true →
      (joinRun cfgOk resp dur hdur region dataRate appEui appKey timeout
        startT st).2.2 =
        (configCommands region dataRate appEui appKey).map Prod.fst ++
          ["AT+JOIN=1"]) := by
  refine ⟨by simp [configCommands], by simp [configCommands], ?_, ?_, ?_⟩
  · intro hc
    have hrc : runConfig cfgOk (configCommands region dataRate appEui appKey) =
        (some ("AT+JOINEUI=" ++ pyUpper appEui),
         ["AT+LORAMODE=LORAWAN", "AT+JOINTYPE=OTAA", "AT+REGION=" ++ region,
          "AT+CLASS=CLASS_A", "AT+DATARATE=" ++ toString dataRate,
          "AT+EIRP=14", "AT+ADR=0", "AT+UPLINKTYPE=UNCONFIRMED",
          "AT+JOINEUI=" ++ pyUpper appEui]) := by
      simp [runConfig, configCommands, hc]
    refine ⟨by simp [joinRun, hrc], ?_⟩
    have ht : (joinRun cfgOk resp dur hdur region dataRate appEui appKey
        timeout startT st).2.2 =
        ["AT+LORAMODE=LORAWAN", "AT+JOINTYPE=OTAA", "AT+REGION=" ++ region,
         "AT+CLASS=CLASS_A", "AT+DATARATE=" ++ toString dataRate,
         "AT+EIRP=14", "AT+ADR=0", "AT+UPLINKTYPE=UNCONFIRMED",
         "AT+JOINEUI=" ++ pyUpper appEui] := by
      simp [joinRun, hrc]
    rw [ht]
    intro hmem
    simp only [List.mem_cons, List.not_mem_nil, or_false] at hmem
    rcases hmem with h | h | h | h | h | h | h | h | h
    · exact absurd h (by decide)
    · exact absurd h (by decide)
    · exact joinReq_ne_append "AT+REGION=" region (by decide) h
    · exact absurd h (by decide)
    · exact joinReq_ne_append "AT+DATARATE=" (toString dataRate) (by decide) h
    · exact absurd h (by decide)
    · exact absurd h (by decide)
    · exact absurd h (by decide)
    · exact joinReq_ne_append "AT+JOINEUI=" (pyUpper appEui) (by decide) h
  · intro hc1 hc2
    have hrc : runConfig cfgOk (configCommands region dataRate appEui appKey) =
        (some ("AT+APPKEY=" ++ pyUpper appKey),
         ["AT+LORAMODE=LORAWAN", "AT+JOINTYPE=OTAA", "AT+REGION=" ++ region,
          "AT+CLASS=CLASS_A", "AT+DATARATE=" ++ toString dataRate,
          "AT+EIRP=14", "AT+ADR=0", "AT+UPLINKTYPE=UNCONFIRMED",
          "AT+JOINEUI=" ++ pyUpper appEui, "AT+APPKEY=" ++ pyUpper appKey]) := by
      simp [runConfig, configCommands, hc1, hc2]
    refine ⟨by simp [joinRun, hrc], ?_⟩
    have ht : (joinRun cfgOk resp dur hdur region dataRate appEui appKey
        timeout startT st).2.2 =
        ["AT+LORAMODE=LORAWAN", "AT+JOINTYPE=OTAA", "AT+REGION=" ++ region,
         "AT+CLASS=CLASS_A", "AT+DATARATE=" ++ toString dataRate,
         "AT+EIRP=14", "AT+ADR=0", "AT+UPLINKTYPE=UNCONFIRMED",
         "AT+JOINEUI=" ++ pyUpper appEui, "AT+APPKEY=" ++ pyUpper appKey] := by
      simp [joinRun, hrc]
    rw [ht]
    intro hmem
    simp only [List.mem_cons, List.not_mem_nil, or_false] at hmem
    rcases hmem with h | h | h | h | h | h | h | h | h | h
    · exact absurd h (by decide)
    · exact absurd h (by decide)
    · exact joinReq_ne_append "AT+REGION=" region (by decide) h
    · exact absurd h (by decide)
    · exact joinReq_ne_append "AT+DATARATE=" (toString dataRate) (by decide) h
    · exact absurd h (by decide)
    · exact absurd h (by decide)
    · exact absurd h (by decide)
    · exact joinReq_ne_append "AT+JOINEUI=" (pyUpper appEui) (by decide) h
    · exact joinReq_ne_append "AT+APPKEY=" (pyUpper appKey) (by decide) h
  · intro hc1 hc2
    have hrc : runConfig cfgOk (configCommands region dataRate appEui appKey) =
        (none, (configCommands region dataRate appEui appKey).map Prod.fst) := by
      simp [runConfig, configCommands, hc1, hc2]
    by_cases hj : cfgOk "AT+JOIN=1"
    · by_cases hp : (pollLoop resp dur hdur startT timeout 0 startT).1
      · simp [joinRun, hrc, hj, hp]
      · simp [joinRun, hrc, hj, hp]
    · simp [joinRun, hrc, hj]

theorem join_config_sequence_witness :
    joinRun (fun _ => false) (fun _ _ => (false, "")) (fun _ => 0)
        (fun _ => le_refl 0) "EU868" 3 "2309199300000000"
        "0102030405060708090a0b0c0d0e0f10" 60 0 initState =
      (.configFailed ("AT+JOINEUI=" ++ pyUpper "2309199300000000"), initState,
       ["AT+LORAMODE=LORAWAN", "AT+JOINTYPE=OTAA", "AT+REGION=" ++ "EU868",
        "AT+CLASS=CLASS_A", "AT+DATARATE=" ++ toString 3, "AT+EIRP=14",
        "AT+ADR=0", "AT+UPLINKTYPE=UNCONFIRMED",
        "AT+JOINEUI=" ++ pyUpper "2309199300000000"]) ∧
    "AT+JOIN=1" ∉
      (joinRun (fun _ => false) (fun _ _ => (false, "")) (fun _ => 0)
        (fun _ => le_refl 0) "EU868" 3 "2309199300000000"
        "0102030405060708090a0b0c0d0e0f10" 60 0 initState).2.2 :=
  (join_config_sequence (fun _ => false) (fun _ _ => (false, "")) (fun _ => 0)
    (fun _ => le_refl 0) "EU868" 3 "2309199300000000"
    "0102030405060708090a0b0c0d0e0f10" 60 0 initState).2.2.1 rfl

/-- Claim C7: once the configuration and join-request exchanges succeed,
`join` polls `AT+JOIN?`; the j-th poll starts at
`startT + Σ i < j, (dur i + 5)` — consecutive polls are `dur j + 5` apart,
i.e. a fixed 5-second interval when exchanges are instantaneous; the call
succeeds and sets `joined := true` exactly when some poll that starts
before `timeout` has elapsed reports ok with value "1"; if no poll ever
reports ok-"1", the loop exhausts the window and `join` ends in the
join-timeout error (concretely: with timeout 10 s and the 5 s interval a
module that never answers "1" yields the timeout error). -/
theorem join_poll_behavior (cfgOk : String → Bool)
    (resp : Nat → String → Bool × String) (dur : Nat → ℚ)
    (hdur : ∀ i, 0 ≤ dur i) (region : String) (dataRate : Nat)
    (appEui appKey : String) (timeout startT : ℚ) (st : LoRaState)
    (hcfg : ∀ c, cfgOk c = true) :
    ((∀ j, ((resp j "AT+JOIN?").1 && ((resp j "AT+JOIN?").2 == "1")) = false) →
      joinRun cfgOk resp dur hdur region dataRate appEui appKey timeout
          startT st =
        (.timedOut, st,
         (configCommands region dataRate appEui appKey).map Prod.fst ++
           ["AT+JOIN=1"])) ∧
    (∀ j, (resp j "AT+JOIN?").1 = true → (resp j "AT+JOIN?").2 = "1" →
      travel dur 0 j startT - startT < timeout →
      (joinRun cfgOk resp dur hdur region dataRate appEui appKey timeout
        startT st).1 = .success ∧
      (joinRun cfgOk resp dur hdur region dataRate appEui appKey timeout
        startT st).2.1 = { st with joined := true }) ∧
    (∃ m, (pollLoop resp dur hdur startT timeout 0 startT).2 =
      (List.range m).map (fun j => travel dur 0 j startT)) ∧
    (∀ j, travel dur 0 (j + 1) startT = travel dur 0 j startT + (dur j + 5)) ∧
    ((∀ i, dur i = 0) →
      ∀ j, travel dur 0 j startT = startT + 5 * (j : ℚ)) := by
  have hrc : runConfig cfgOk (configCommands region dataRate appEui appKey) =
      (none, (configCommands region dataRate appEui appKey).map Prod.fst) := by
    simp [runConfig, configCommands, hcfg]
  refine ⟨?_, ?_, ?_, ?_, ?_⟩
  · intro hno
    have hp : (pollLoop resp dur hdur startT timeout 0 startT).1 = false :=
      pollLoop_no_success resp dur hdur startT timeout hno _ 0 startT le_rfl
    simp [joinRun, hrc, hcfg "AT+JOIN=1", hp]
  · intro j h1 h2 hlt
    have hp : (pollLoop resp dur hdur startT timeout 0 startT).1 = true :=
      pollLoop_success resp dur hdur startT timeout j 0 startT
        (by simpa using h1) (by simpa using h2) hlt
    constructor
    · simp [joinRun, hrc, hcfg "AT+JOIN=1", hp]
    · simp [joinRun, hrc, hcfg "AT+JOIN=1", hp]
  · exact pollLoop_times resp dur hdur startT timeout _ 0 startT le_rfl
  · intro j
    exact travel_step dur j startT
  · intro hd0 j
    induction j with
    | zero =>
        rw [travel_zero]
        simp
    | succ j ihj =>
        rw [travel_step, ihj, hd0 j]
        push_cast
        ring

theorem join_poll_behavior_witness :
    joinRun (fun _ => true) (fun _ _ => (false, "")) (fun _ => 0)
        (fun _ => le_refl 0) "EU868" 3 "2309199300000000"
        "0102030405060708090a0b0c0d0e0f10" 10 0 initState =
      (.timedOut, initState,
       (configCommands "EU868" 3 "2309199300000000"
         "0102030405060708090a0b0c0d0e0f10").map Prod.fst ++ ["AT+JOIN=1"]) :=
  (join_poll_behavior (fun _ => true) (fun _ _ => (false, "")) (fun _ => 0)
    (fun _ => le_refl 0) "EU868" 3 "2309199300000000"
    "0102030405060708090a0b0c0d0e0f10" 10 0 initState (fun _ => rfl)).1
    (fun _ => rfl)

/-- Claim C8: `_joined` starts false; `send`, `stop`, a worker iteration
and the `is_connected` read never change it; `join` leaves the state
untouched on every failure outcome and writes `joined := true` exactly on
success — so within a session the flag transitions false→true at most
once (only on a successful join) and never reverts. -/
theorem joined_flag_monotone :
    initState.joined = false ∧
    (∀ (st : LoRaState) (d : PyData) (r : Bool) (st' : LoRaState),
        send st d = .ok (r, st') → st'.joined = st.joined) ∧
    (∀ st : LoRaState, (stop st).joined = st.joined) ∧
    (∀ (st : LoRaState) (env : SendEnv),
        (workerIteration st env).state.joined = st.joined) ∧
    (∀ st : LoRaState, is_connected st = st.joined) ∧
    (∀ (cfgOk : String → Bool) (resp : Nat → String → Bool × String)
        (dur : Nat → ℚ) (hdur : ∀ i, 0 ≤ dur i) (region : String)
        (dataRate : Nat) (appEui appKey : String) (timeout startT : ℚ)
        (st : LoRaState),
        ((joinRun cfgOk resp dur hdur region dataRate appEui appKey timeout
            startT st).1 ≠ .success →
          (joinRun cfgOk resp dur hdur region dataRate appEui appKey timeout
            startT st).2.1 = st) ∧
        ((joinRun cfgOk resp dur hdur region dataRate appEui appKey timeout
            startT st).1 = .success →
          (joinRun cfgOk resp dur hdur region dataRate appEui appKey timeout
            startT st).2.1 = { st with joined := true }) ∧
        (st.joined = true →
          (joinRun cfgOk resp dur hdur region dataRate appEui appKey timeout
            startT st).2.1.joined = true)) := by
  refine ⟨rfl, ?_, fun st => rfl, ?_, fun st => rfl, ?_⟩
  · intro st d r st' h
    unfold send at h
    by_cases hj : st.joined = false
    · rw [if_pos hj] at h
      simp only [Except.ok.injEq, Prod.mk.injEq] at h
      rw [← h.2]
    · rw [if_neg hj] at h
      rcases htb : toBytes d with e | payload <;> rw [htb] at h
      · exact absurd h (by simp)
      · replace h :
            (if payload.length = 0 then
              (Except.ok (false, st) : Except Unit (Bool × LoRaState))
             else if 242 < payload.length then Except.ok (false, st)
             else if MAX_QUEUE_SIZE ≤ st.queue.length then
               Except.ok (false, st)
             else Except.ok (true,
               { st with queue := st.queue ++ [{ data := payload }] })) =
              Except.ok (r, st') := h
        by_cases h1 : payload.length = 0
        · rw [if_pos h1] at h
          simp only [Except.ok.injEq, Prod.mk.injEq] at h
          rw [← h.2]
        · rw [if_neg h1] at h
          by_cases h2 : 242 < payload.length
          · rw [if_pos h2] at h
            simp only [Except.ok.injEq, Prod.mk.injEq] at h
            rw [← h.2]
          · rw [if_neg h2] at h
            by_cases h3 : MAX_QUEUE_SIZE ≤ st.queue.length
            · rw [if_pos h3] at h
              simp only [Except.ok.injEq, Prod.mk.injEq] at h
              rw [← h.2]
            · rw [if_neg h3] at h
              simp only [Except.ok.injEq, Prod.mk.injEq] at h
              rw [← h.2]
  · intro st env
    unfold workerIteration
    rcases hq : st.queue with _ | ⟨m, rest⟩ <;> simp [hq]
  · intro cfgOk resp dur hdur region dataRate appEui appKey timeout startT st
    have hcases :
        ((joinRun cfgOk resp dur hdur region dataRate appEui appKey timeout
            startT st).1 = .success ∧
         (joinRun cfgOk resp dur hdur region dataRate appEui appKey timeout
            startT st).2.1 = { st with joined := true }) ∨
        ((joinRun cfgOk resp dur hdur region dataRate appEui appKey timeout
            startT st).1 ≠ .success ∧
         (joinRun cfgOk resp dur hdur region dataRate appEui appKey timeout
            startT st).2.1 = st) := by
      unfold joinRun
      rcases hr : (runConfig cfgOk
          (configCommands region dataRate appEui appKey)).1 with _ | c
      · simp only [hr]
        by_cases hj : cfgOk "AT+JOIN=1"
        · by_cases hp : (pollLoop resp dur hdur startT timeout 0 startT).1
          · left
            simp [hj, hp]
          · right
            simp [hj, hp]
        · right
          simp [hj]
      · right
        simp [hr]
    rcases hcases with ⟨h1, h2⟩ | ⟨h1, h2⟩
    · exact ⟨fun hne => absurd h1 hne, fun _ => h2, fun _ => by rw [h2]⟩
    · exact ⟨fun _ => h2, fun hs => absurd hs h1, fun hjj => by rw [h2]; exact hjj⟩

theorem joined_flag_monotone_witness :
    initState.joined = false ∧
    (stop initState).joined = initState.joined ∧
    initState.joined = initState.joined ∧
    (joinRun (fun _ => false) (fun _ _ => (false, "")) (fun _ => 0)
        (fun _ => le_refl 0) "EU868" 3 "AB" "CD" 10 0 initState).2.1 =
      initState :=
  ⟨joined_flag_monotone.1,
   joined_flag_monotone.2.2.1 initState,
   joined_flag_monotone.2.1 initState (.ofBytes [1]) false initState rfl,
   (joined_flag_monotone.2.2.2.2.2 (fun _ => false) (fun _ _ => (false, ""))
     (fun _ => 0) (fun _ => le_refl 0) "EU868" 3 "AB" "CD" 10 0
     initState).1 (by decide)⟩

end LoraUart
